import Mathlib

/-!
Shallow embedding of the e-commerce backend's validation pipeline, store
adapter and health endpoints, with proofs of the specified properties.

Source files embedded:
- `backend/src/middleware/validation.ts` (`sanitizeString`,
  `validateProductInput`, `limitRequestSize`, `validatePaginationParams`)
- `backend/src/routes/products.ts` (`router.post`, `router.get`)
- the two `backend/src/index.ts` variants (optimistic and strict
  `/api/health`, middleware registration order)

JavaScript strings are modelled as `List Char`/`String`; JavaScript numbers
as exact rationals plus an explicit `NaN` constructor (the claims under
study never depend on IEEE-754 rounding of the involved literals);
JavaScript runtime values reaching the middleware as a small `JsValue`
inductive covering the JSON primitives.
-/

/-- The whitespace characters removed by JavaScript `String.prototype.trim`
(ECMA-262 WhiteSpace and LineTerminator; the common members). -/
def isJsWhitespace (c : Char) : Bool :=
  c = ' ' || c = '\t' || c = '\n' || c = '\r' ||
  c = Char.ofNat 0x0b || c = Char.ofNat 0x0c ||
  c = Char.ofNat 0xa0 || c = Char.ofNat 0xfeff

/-- The characters matched by the regex `[<>]` in `sanitizeString`. -/
def isAngleChar (c : Char) : Bool := c = '<' || c = '>'

/-- The characters matched by the regex `['"]` in `sanitizeString`
(single quote is `Char.ofNat 39`). -/
def isQuoteChar (c : Char) : Bool := c = Char.ofNat 39 || c = '"'

/-- JavaScript `String.prototype.trim`: drop whitespace from both ends. -/
def trimChars (l : List Char) : List Char :=
  ((l.dropWhile isJsWhitespace).reverse.dropWhile isJsWhitespace).reverse

/-- `trim` lifted to `String`. -/
def trimString (s : String) : String := ⟨trimChars s.data⟩

/-- `sanitizeString` from `validation.ts`, on character lists:
`input.trim().replace(/[<>]/g, "").replace(/[\x27"]/g, "").substring(0, 255)`. -/
def sanitizeChars (l : List Char) : List Char :=
  ((((trimChars l).filter (fun c => !isAngleChar c)).filter
    (fun c => !isQuoteChar c)).take 255)

/-- `sanitizeString` from `validation.ts`. -/
def sanitizeString (s : String) : String := ⟨sanitizeChars s.data⟩

/-- A JavaScript number: either `NaN` or an exact value. -/
inductive JsNum where
  | nan : JsNum
  | val : ℚ → JsNum
  deriving DecidableEq

/-- A JavaScript JSON-primitive runtime value as seen by the middleware. -/
inductive JsValue where
  | undefined : JsValue
  | null : JsValue
  | bool : Bool → JsValue
  | num : JsNum → JsValue
  | str : String → JsValue
  deriving DecidableEq

/-- JavaScript truthiness, as tested by `if (!name)`. -/
def truthy : JsValue → Bool
  | .undefined => false
  | .null => false
  | .bool b => b
  | .num .nan => false
  | .num (.val q) => decide (q ≠ 0)
  | .str s => decide (s ≠ "")

/-- Outcome of the product-creation validation middleware: either a JSON
error response with an HTTP status, or `next()` with the sanitized values
written back into `req.body`. -/
inductive ValidationOutcome where
  | rejected : ℕ → String → ValidationOutcome
  | accepted : String → ℚ → ValidationOutcome
  deriving DecidableEq

/-- `Math.round(price * 100) / 100` from `validateProductInput`:
`Math.round` rounds half-up (toward +infinity), i.e. `x ↦ ⌊x + 1/2⌋`. -/
def roundHalfUp2 (q : ℚ) : ℚ := (⌊q * 100 + 1/2⌋ : ℚ) / 100

/-- The maximum allowed price, `999999.99`. -/
def priceMax : ℚ := 99999999 / 100

/-- `validateProductInput` from `validation.ts`, as a function of the
`name` and `price` fields of `req.body`. Checks in source order:
`!name`; `typeof name !== "string"`; sanitized length 0, < 3, > 100;
`price === undefined || price === null`; `typeof price !== "number"`;
`Number.isNaN(price)`; `price < 0`; `price > 999999.99`; otherwise round
to 2 decimals and accept. -/
def validateProductInput (name price : JsValue) : ValidationOutcome :=
  if !truthy name then .rejected 400 "Product name is required"
  else
    match name with
    | .str s =>
      let sanitizedName := sanitizeString s
      if sanitizedName.length = 0 then
        .rejected 400 "Product name cannot be empty"
      else if sanitizedName.length < 3 then
        .rejected 400 "Product name must be at least 3 characters"
      else if sanitizedName.length > 100 then
        .rejected 400 "Product name must not exceed 100 characters"
      else
        match price with
        | .undefined => .rejected 400 "Product price is required"
        | .null => .rejected 400 "Product price is required"
        | .num .nan => .rejected 400 "Product price must be a valid number"
        | .num (.val q) =>
          if q < 0 then .rejected 400 "Product price must be non-negative"
          else if q > priceMax then
            .rejected 400 "Product price exceeds maximum allowed value"
          else .accepted sanitizedName (roundHalfUp2 q)
        | _ => .rejected 400 "Product price must be a number"
    | _ => .rejected 400 "Product name must be a string"

/-- The validation pipeline exactly as the specification words it, rules 1
to 10 in the spec's order with first-failure short-circuit (rule 1:
presence, realized as JavaScript truthiness; rule 2: textual; rule 3:
sanitize, reject empty; rule 4: length bounds; rule 5: price present, not
absent/null; rule 6: numeric; rule 7: not NaN; rule 8: non-negative;
rule 9: maximum; rule 10: round half-up to 2 decimals and accept). This
definition follows the spec text and is compared against
`validateProductInput`, which is translated from the code. -/
def validateCreateSpec (name price : JsValue) : ValidationOutcome :=
  if !truthy name then .rejected 400 "Product name is required"
  else
    match name with
    | .str s =>
      let n := sanitizeString s
      if n.length = 0 then .rejected 400 "Product name cannot be empty"
      else if n.length < 3 then
        .rejected 400 "Product name must be at least 3 characters"
      else if n.length > 100 then
        .rejected 400 "Product name must not exceed 100 characters"
      else if price = .undefined ∨ price = .null then
        .rejected 400 "Product price is required"
      else
        match price with
        | .num .nan => .rejected 400 "Product price must be a valid number"
        | .num (.val q) =>
          if q < 0 then .rejected 400 "Product price must be non-negative"
          else if q > priceMax then
            .rejected 400 "Product price exceeds maximum allowed value"
          else .accepted n (roundHalfUp2 q)
        | _ => .rejected 400 "Product price must be a number"
    | _ => .rejected 400 "Product name must be a string"

/-- JavaScript `parseInt(s)` (no explicit radix): skip leading whitespace,
read an optional sign, detect a `0x`/`0X` prefix (radix 16, else 10), read
the longest run of digits of that radix, and ignore the rest of the
string; `none` models the `NaN` result when there is no digit. -/
def digitValue (c : Char) : ℕ :=
  if c.isDigit then c.toNat - 48
  else if decide ('a' ≤ c) && decide (c ≤ 'f') then c.toNat - 87
  else if decide ('A' ≤ c) && decide (c ≤ 'F') then c.toNat - 55
  else 0

/-- Hexadecimal digit test for `parseInt` with radix 16. -/
def isHexDigitChar (c : Char) : Bool :=
  c.isDigit || (decide ('a' ≤ c) && decide (c ≤ 'f')) ||
    (decide ('A' ≤ c) && decide (c ≤ 'F'))

/-- JavaScript `parseInt` on a string, returning `none` for `NaN`. -/
def jsParseInt (s : String) : Option ℤ :=
  let l := s.data.dropWhile isJsWhitespace
  let signAndRest : ℤ × List Char :=
    match l with
    | '-' :: t => (-1, t)
    | '+' :: t => (1, t)
    | _ => (1, l)
  let radixAndRest : ℕ × List Char :=
    match signAndRest.2 with
    | '0' :: c :: t =>
      if c = 'x' || c = 'X' then (16, t) else (10, signAndRest.2)
    | _ => (10, signAndRest.2)
  let ds := radixAndRest.2.takeWhile
    (fun c => if radixAndRest.1 = 16 then isHexDigitChar c else c.isDigit)
  if ds.isEmpty then none
  else some (signAndRest.1 *
    (ds.foldl (fun a c => radixAndRest.1 * a + digitValue c) 0 : ℕ))

/-- Result of an app-level middleware: a terminal JSON error response or
`next()`. -/
inductive SizeGuardResult where
  | reject : ℕ → String → SizeGuardResult
  | next : SizeGuardResult
  deriving DecidableEq

/-- `limitRequestSize` from `validation.ts`, as a function of the
`content-length` header (`none` when the header is absent):
`if (contentLength && parseInt(contentLength) > 1048576)` respond 413,
else `next()`. An absent or empty header is falsy; a `NaN` parse fails
the `>` comparison. -/
def limitRequestSize (contentLength : Option String) : SizeGuardResult :=
  match contentLength with
  | none => .next
  | some s =>
    if s = "" then .next
    else
      match jsParseInt s with
      | none => .next
      | some n =>
        if n > 1048576 then .reject 413 "Request payload too large"
        else .next

/-- The stages of the backend request pipeline, in the roles they play in
`index.ts` (app-level middleware) and `routes/products.ts` (route-level
middleware and handler). -/
inductive PipelineStage where
  | corsStage : PipelineStage
  | jsonBodyParser : PipelineStage
  | sizeGuard : PipelineStage
  | requestLogger : PipelineStage
  | productValidation : PipelineStage
  | routeHandler : PipelineStage
  deriving DecidableEq, BEq

/-- The app-level middleware registration order of the `index.ts` variant
that uses `limitRequestSize`: `app.use(cors())`, `app.use(express.json())`,
`app.use(limitRequestSize)`, then the request logger. -/
def appMiddlewareOrder : List PipelineStage :=
  [.corsStage, .jsonBodyParser, .sizeGuard, .requestLogger]

/-- The full stage order seen by `POST /api/products`: the app-level
middleware, then `validateProductInput`, then the route handler. -/
def postProductsPipeline : List PipelineStage :=
  appMiddlewareOrder ++ [.productValidation, .routeHandler]

/-- Outcome of `validatePaginationParams`: a 400 response, or `next()` with
the (possibly rewritten) `limit` and `skip` query values. -/
inductive PaginationOutcome where
  | rejected : ℕ → String → PaginationOutcome
  | proceed : Option String → Option String → PaginationOutcome
  deriving DecidableEq

/-- The `skip` half of `validatePaginationParams`: when `skip` is present,
`parseInt` it, reject `NaN` or negative values, else write back
`skipNum.toString()`. -/
def checkSkipParam (newLimit : Option String) (skip : Option String) :
    PaginationOutcome :=
  match skip with
  | none => .proceed newLimit none
  | some s =>
    match jsParseInt s with
    | none => .rejected 400 "Invalid skip parameter. Must be non-negative"
    | some n =>
      if n < 0 then
        .rejected 400 "Invalid skip parameter. Must be non-negative"
      else .proceed newLimit (some (toString n))

/-- `validatePaginationParams` from `validation.ts`, as a function of the
`limit` and `skip` query values (`none` when absent): when `limit` is
present, `parseInt` it and reject `NaN`, `< 1` or `> 100`; then the same
for `skip` with the non-negativity bound; on success the parsed values are
written back into `req.query` as strings. -/
def validatePaginationParams (limit skip : Option String) :
    PaginationOutcome :=
  match limit with
  | none => checkSkipParam none skip
  | some l =>
    match jsParseInt l with
    | none =>
      .rejected 400 "Invalid limit parameter. Must be between 1 and 100"
    | some n =>
      if n < 1 ∨ n > 100 then
        .rejected 400 "Invalid limit parameter. Must be between 1 and 100"
      else checkSkipParam (some (toString n)) skip

/-- An HTTP health reply: status code plus the JSON fields `ok` and
`database`. -/
structure HealthResponse where
  status : ℕ
  ok : Bool
  database : String
  deriving DecidableEq

/-- The four mongoose connection states, with their numeric `readyState`
encoding (`0 = disconnected, 1 = connected, 2 = connecting,
3 = disconnecting`, as the code comments). -/
inductive ConnectionState where
  | disconnected : ConnectionState
  | connected : ConnectionState
  | connecting : ConnectionState
  | disconnecting : ConnectionState
  deriving DecidableEq

/-- Numeric `mongoose.connection.readyState` of a connection state. -/
def ConnectionState.readyState : ConnectionState → ℕ
  | .disconnected => 0
  | .connected => 1
  | .connecting => 2
  | .disconnecting => 3

/-- The strict `/api/health` handler (second `index.ts` variant):
`isHealthy = readyState === 1`, status `200` when healthy else `503`,
`ok` mirrors `isHealthy`. -/
def strictHealth (readyState : ℕ) : HealthResponse :=
  { status := if readyState = 1 then 200 else 503,
    ok := decide (readyState = 1),
    database := if readyState = 1 then "connected" else "disconnected" }

/-- The optimistic `/api/health` handler (first `index.ts` variant):
`res.json({ ok: true, database })` — implicit status `200` and `ok: true`
regardless of the connection state. -/
def optimisticHealth (readyState : ℕ) : HealthResponse :=
  { status := 200,
    ok := true,
    database := if readyState = 1 then "connected" else "disconnected" }

/-- A persisted product: sanitized name, normalized price, store-assigned
creation timestamp. -/
structure Product where
  name : String
  price : ℚ
  createdAt : ℕ
  deriving DecidableEq

/-- One step of sorting by `createdAt` descending: insert `p` before the
first element whose `createdAt` does not exceed it. -/
def insertByCreatedAtDesc (p : Product) : List Product → List Product
  | [] => [p]
  | q :: qs =>
    if q.createdAt ≤ p.createdAt then p :: q :: qs
    else q :: insertByCreatedAtDesc p qs

/-- The MongoDB `.sort({ createdAt: -1 })` ordering of the store's
documents: sort by `createdAt` descending (insertion sort). -/
def sortByCreatedAtDesc (l : List Product) : List Product :=
  l.foldr insertByCreatedAtDesc []

/-- The query `ProductModel.find().sort({ createdAt: -1 }).limit(limit)
.skip(skip)` from `routes/products.ts`. MongoDB applies `sort`, then
`skip`, then `limit`, independently of the call order of the two query
modifiers. -/
def listProducts (store : List Product) (limit skip : ℕ) : List Product :=
  ((sortByCreatedAtDesc store).drop skip).take limit

/-- `parseInt(q) || d` from the GET route: the default is used when the
value is absent, does not parse, or parses to `0` (falsy). -/
def jsNumOrDefault (q : Option String) (d : ℤ) : ℤ :=
  match q with
  | none => d
  | some s =>
    match jsParseInt s with
    | none => d
    | some n => if n = 0 then d else n

/-- The `GET /api/products` handler from `routes/products.ts`:
`limit = parseInt(req.query.limit) || 100`,
`skip = parseInt(req.query.skip) || 0`, then the paged, sorted query. -/
def getProductsHandler (store : List Product) (limitQ skipQ : Option String) :
    List Product :=
  listProducts store (jsNumOrDefault limitQ 100).toNat
    (jsNumOrDefault skipQ 0).toNat

/-- Concrete product A, created first (`createdAt = 0`). -/
def productA : Product := ⟨"A", 1, 0⟩

/-- Concrete product B, created second (`createdAt = 1`). -/
def productB : Product := ⟨"B", 1, 1⟩

/-- Concrete product C, created third (`createdAt = 2`). -/
def productC : Product := ⟨"C", 1, 2⟩

/-! ### Helper lemmas -/

theorem trimChars_subset (l : List Char) : trimChars l ⊆ l := by
  intro c hc
  unfold trimChars at hc
  rw [List.mem_reverse] at hc
  have h1 := (List.dropWhile_sublist isJsWhitespace).subset hc
  rw [List.mem_reverse] at h1
  exact (List.dropWhile_sublist isJsWhitespace).subset h1

theorem trimChars_length_le (l : List Char) :
    (trimChars l).length ≤ l.length := by
  unfold trimChars
  rw [List.length_reverse]
  calc ((l.dropWhile isJsWhitespace).reverse.dropWhile isJsWhitespace).length
      ≤ (l.dropWhile isJsWhitespace).reverse.length :=
        (List.dropWhile_sublist isJsWhitespace).length_le
    _ = (l.dropWhile isJsWhitespace).length := List.length_reverse _
    _ ≤ l.length := (List.dropWhile_sublist isJsWhitespace).length_le

theorem mem_sanitizeChars {c : Char} {l : List Char}
    (h : c ∈ sanitizeChars l) :
    isAngleChar c = false ∧ isQuoteChar c = false := by
  unfold sanitizeChars at h
  have h1 := List.mem_of_mem_take h
  have h2 := List.mem_filter.mp h1
  have h3 := List.mem_filter.mp h2.1
  refine ⟨?_, ?_⟩
  · simpa using h3.2
  · simpa using h2.2

theorem sanitizeChars_length_le (l : List Char) :
    (sanitizeChars l).length ≤ 255 := by
  unfold sanitizeChars
  rw [List.length_take]
  exact min_le_left _ _

theorem sanitizeChars_of_clean {l : List Char}
    (hmem : ∀ c ∈ l, isAngleChar c = false ∧ isQuoteChar c = false)
    (hlen : l.length ≤ 255) : sanitizeChars l = trimChars l := by
  unfold sanitizeChars
  have hclean : ∀ c ∈ trimChars l, isAngleChar c = false ∧ isQuoteChar c = false :=
    fun c hc => hmem c (trimChars_subset l hc)
  have ha : (trimChars l).filter (fun c => !isAngleChar c) = trimChars l :=
    List.filter_eq_self.mpr (fun c hc => by simp [(hclean c hc).1])
  rw [ha]
  have hq : (trimChars l).filter (fun c => !isQuoteChar c) = trimChars l :=
    List.filter_eq_self.mpr (fun c hc => by simp [(hclean c hc).2])
  rw [hq]
  exact List.take_of_length_le (le_trans (trimChars_length_le l) hlen)

theorem sanitizeChars_sanitizeChars (l : List Char) :
    sanitizeChars (sanitizeChars l) = trimChars (sanitizeChars l) :=
  sanitizeChars_of_clean (fun _ hc => mem_sanitizeChars hc)
    (sanitizeChars_length_le l)

theorem sanitizeString_fixed {n : String}
    (hsan : ∃ s, n = sanitizeString s) (htrim : trimString n = n) :
    sanitizeString n = n := by
  obtain ⟨s, rfl⟩ := hsan
  show (⟨sanitizeChars (sanitizeChars s.data)⟩ : String) = _
  rw [sanitizeChars_sanitizeChars]
  exact htrim

theorem string_length_data (l : List Char) :
    (⟨l⟩ : String).length = l.length := rfl

/-- Inversion for the accepting branch of `validateProductInput`: what an
accepted payload looks like and which bounds it satisfies. -/
theorem validateProductInput_accepted {nv pv : JsValue} {n : String} {p : ℚ}
    (h : validateProductInput nv pv = .accepted n p) :
    ∃ s q, nv = .str s ∧ pv = .num (.val q) ∧ n = sanitizeString s ∧
      3 ≤ n.length ∧ n.length ≤ 100 ∧ 0 ≤ q ∧ q ≤ priceMax ∧
      p = roundHalfUp2 q := by
  unfold validateProductInput at h
  split at h
  · exact absurd h (by simp)
  · cases nv with
    | str s =>
      simp only at h
      split at h
      · exact absurd h (by simp)
      · split at h
        · exact absurd h (by simp)
        · split at h
          · exact absurd h (by simp)
          · cases pv with
            | num pn =>
              cases pn with
              | nan => exact absurd h (by simp)
              | val q =>
                simp only at h
                split at h
                · exact absurd h (by simp)
                · split at h
                  · exact absurd h (by simp)
                  · injection h with hn hp
                    refine ⟨s, q, rfl, rfl, hn.symm, ?_, ?_, ?_, ?_, hp.symm⟩
                    · rw [← hn]; omega
                    · rw [← hn]; omega
                    · exact le_of_not_lt (by assumption)
                    · exact le_of_not_lt (by assumption)
            | undefined => exact absurd h (by simp)
            | null => exact absurd h (by simp)
            | bool b => exact absurd h (by simp)
            | str t => exact absurd h (by simp)
    | undefined => exact absurd h (by simp)
    | null => exact absurd h (by simp)
    | bool b => exact absurd h (by simp)
    | num pn => exact absurd h (by simp)

theorem roundHalfUp2_nonneg {q : ℚ} (h : 0 ≤ q) : 0 ≤ roundHalfUp2 q := by
  unfold roundHalfUp2
  apply div_nonneg _ (by norm_num)
  have : (0 : ℤ) ≤ ⌊q * 100 + 1/2⌋ := by
    rw [Int.le_floor]
    push_cast
    nlinarith
  exact_mod_cast this

theorem roundHalfUp2_le_max {q : ℚ} (h : q ≤ priceMax) :
    roundHalfUp2 q ≤ priceMax := by
  unfold roundHalfUp2 priceMax at *
  have h1 : ⌊q * 100 + 1/2⌋ ≤ 99999999 := by
    have h2 : q * 100 + 1/2 ≤ (99999999 : ℚ) + 1/2 := by nlinarith
    have h4 : ⌊q * 100 + 1/2⌋ ≤ ⌊((99999999 : ℚ) + 1/2 : ℚ)⌋ :=
      Int.floor_le_floor h2
    have h5 : ⌊((99999999 : ℚ) + 1/2 : ℚ)⌋ = 99999999 := by
      norm_num [Int.floor_eq_iff]
    omega
  have h6 : ((⌊q * 100 + 1/2⌋ : ℤ) : ℚ) ≤ 99999999 := by exact_mod_cast h1
  linarith

theorem roundHalfUp2_idem (q : ℚ) :
    roundHalfUp2 (roundHalfUp2 q) = roundHalfUp2 q := by
  unfold roundHalfUp2
  set k : ℤ := ⌊q * 100 + 1/2⌋ with hk
  have h1 : (k : ℚ) / 100 * 100 = (k : ℚ) := by field_simp
  rw [h1]
  have h2 : ⌊(k : ℚ) + 1/2⌋ = k + ⌊(1/2 : ℚ)⌋ := Int.floor_int_add k _
  have h3 : ⌊(1/2 : ℚ)⌋ = 0 := by norm_num [Int.floor_eq_iff]
  rw [h2, h3, add_zero]

theorem insertByCreatedAtDesc_append (p : Product) (m : List Product)
    (h : ∀ q ∈ m, p.createdAt < q.createdAt) :
    insertByCreatedAtDesc p m = m ++ [p] := by
  induction m with
  | nil => rfl
  | cons q qs ih =>
    have hq := h q (by simp)
    unfold insertByCreatedAtDesc
    rw [if_neg (by omega)]
    rw [ih (fun r hr => h r (by simp [hr]))]
    rfl

theorem sortByCreatedAtDesc_of_increasing (l : List Product)
    (h : l.Pairwise (fun a b => a.createdAt < b.createdAt)) :
    sortByCreatedAtDesc l = l.reverse := by
  induction l with
  | nil => rfl
  | cons a l ih =>
    have hp := List.pairwise_cons.mp h
    show insertByCreatedAtDesc a (sortByCreatedAtDesc l) = _
    rw [ih hp.2]
    rw [insertByCreatedAtDesc_append a l.reverse
      (fun q hq => hp.1 q (List.mem_reverse.mp hq))]
    rw [List.reverse_cons]

/-! ### Claim theorems -/

/-- C1, counterexample: the body `{name: "< ab", price: 1}` is accepted and
stored with name `" ab"` (stripping `<` exposed a leading space), but
re-running the stored name through validation rejects it as too short —
the store can contain a Product that fails re-validation. -/
theorem C1_counterexample :
    validateProductInput (.str "< ab") (.num (.val 1)) = .accepted " ab" 1 ∧
    validateProductInput (.str " ab") (.num (.val 1)) =
      .rejected 400 "Product name must be at least 3 characters" := by
  constructor
  · have h1 : sanitizeString "< ab" = " ab" := by decide
    simp only [validateProductInput, h1]
    norm_num [roundHalfUp2, priceMax, Int.floor_eq_iff, truthy]
    decide
  · decide

/-- C1 (amended): every accepted payload's stored price re-validates
unchanged, and the stored name re-validates unchanged provided the
sanitized name carries no leading or trailing whitespace (stripping
angle-bracket or quote characters can expose end whitespace that a re-run
would trim, as the counterexample shows); in particular the accepted body
`{name: "Acme", price: 1}` re-validates to itself. -/
theorem C1_revalidation_amended :
    (∀ nv pv n p, validateProductInput nv pv = .accepted n p →
      trimString n = n →
      validateProductInput (.str n) (.num (.val p)) = .accepted n p) ∧
    (validateProductInput (.str "Acme") (.num (.val 1)) =
      .accepted "Acme" 1 ∧
     trimString "Acme" = "Acme") := by
  constructor
  · intro nv pv n p h htrim
    obtain ⟨s, q, hnv, hpv, hn, h3, h100, hq0, hqmax, hp⟩ :=
      validateProductInput_accepted h
    have hsan : sanitizeString n = n := sanitizeString_fixed ⟨s, hn⟩ htrim
    have hne : n ≠ "" := by
      intro he
      rw [he] at h3
      simp at h3
    have htr : truthy (.str n) = true := by simp [truthy, hne]
    have hp0 : 0 ≤ p := hp ▸ roundHalfUp2_nonneg hq0
    have hpm : p ≤ priceMax := hp ▸ roundHalfUp2_le_max hqmax
    have hpi : roundHalfUp2 p = p := by rw [hp, roundHalfUp2_idem]
    unfold validateProductInput
    rw [htr]
    simp only [Bool.not_true, Bool.false_eq_true, if_false]
    simp only [hsan, hpi]
    rw [if_neg (by omega), if_neg (by omega), if_neg (by omega),
      if_neg (not_lt.mpr hp0), if_neg (not_lt.mpr hpm)]
  · constructor
    · have h1 : sanitizeString "Acme" = "Acme" := by decide
      simp only [validateProductInput, h1]
      norm_num [roundHalfUp2, priceMax, Int.floor_eq_iff, truthy]
      decide
    · decide

/-- C1, witness: the amended theorem applied to the accepted body
`{name: "Acme", price: 1}`. -/
theorem C1_revalidation_witness :
    validateProductInput (.str "Acme") (.num (.val 1)) =
      .accepted "Acme" 1 :=
  C1_revalidation_amended.1 (JsValue.str "Acme") (JsValue.num (JsNum.val 1))
    "Acme" 1 C1_revalidation_amended.2.1 C1_revalidation_amended.2.2

/-- C2, counterexample: sanitize is not idempotent — on `"< ab"` stripping
the angle bracket exposes a leading space, so a second application trims
further. -/
theorem C2_counterexample :
    sanitizeString (sanitizeString "< ab") ≠ sanitizeString "< ab" := by
  decide

/-- C2 (amended): for every string `x`, `sanitize (sanitize x) =
trim (sanitize x)` — the second pass can only trim end whitespace exposed
by the first pass's character stripping or truncation, so idempotence
holds exactly on inputs whose sanitized form is trim-fixed. -/
theorem C2_sanitize_amended :
    ∀ s : String,
      sanitizeString (sanitizeString s) = trimString (sanitizeString s) := by
  intro s
  show (⟨sanitizeChars (sanitizeChars s.data)⟩ : String) = _
  rw [sanitizeChars_sanitizeChars]
  rfl

/-- C3: `validateProductInput` equals the rule list of the specification,
evaluated in the spec's exact order with first-failure short-circuit
(the refinement equality), and on the cited inputs: `name="AB"` is
rejected as too short whatever the price (the price rules are never
reached), `name="ABC"` passes the name rules, `price=-1` is rejected as
negative, `price=999999.99` is accepted, `price=1000000` is rejected as
exceeding the maximum. -/
theorem C3_rule_order :
    (∀ nv pv, validateProductInput nv pv = validateCreateSpec nv pv) ∧
    (∀ pv, validateProductInput (.str "AB") pv =
      .rejected 400 "Product name must be at least 3 characters") ∧
    validateProductInput (.str "ABC") (.num (.val 1)) = .accepted "ABC" 1 ∧
    validateProductInput (.str "ABC") (.num (.val (-1))) =
      .rejected 400 "Product price must be non-negative" ∧
    validateProductInput (.str "ABC") (.num (.val priceMax)) =
      .accepted "ABC" priceMax ∧
    validateProductInput (.str "ABC") (.num (.val 1000000)) =
      .rejected 400 "Product price exceeds maximum allowed value" := by
  refine ⟨?_, ?_, ?_, ?_, ?_, ?_⟩
  · intro nv pv
    cases nv <;> cases pv <;> try rfl
    all_goals (rename_i pn; cases pn <;> rfl)
  · intro pv
    rfl
  · have h1 : sanitizeString "ABC" = "ABC" := by decide
    simp only [validateProductInput, h1]
    norm_num [roundHalfUp2, priceMax, Int.floor_eq_iff, truthy]
    decide
  · have h1 : sanitizeString "ABC" = "ABC" := by decide
    simp only [validateProductInput, h1]
    norm_num [truthy]
    decide
  · have h1 : sanitizeString "ABC" = "ABC" := by decide
    simp only [validateProductInput, h1]
    norm_num [roundHalfUp2, priceMax, Int.floor_eq_iff, truthy]
    rw [if_neg (by decide), if_neg (by decide), if_neg (by decide),
      if_neg (by decide)]
  · have h1 : sanitizeString "ABC" = "ABC" := by decide
    simp only [validateProductInput, h1]
    norm_num [priceMax, truthy]
    decide

/-- C4: the strict health variant reports `ok` with HTTP 200 exactly when
the connection state is `Connected` (readyState 1) and `ok:false` with 503
in every other state, Connecting included; the optimistic variant reports
`ok:true` with 200 regardless of the state. -/
theorem C4_health_variants :
    ∀ s : ConnectionState,
      (strictHealth s.readyState).status =
        (if s = .connected then 200 else 503) ∧
      (strictHealth s.readyState).ok = decide (s = .connected) ∧
      (optimisticHealth s.readyState).status = 200 ∧
      (optimisticHealth s.readyState).ok = true := by
  intro s
  cases s <;> decide

/-- C5, counterexample: the JSON body parser is registered before the size
guard in the app middleware order, so an oversized request's body is
parsed before `limitRequestSize` can reject it — the claim's
"before the body is parsed" is false. -/
theorem C5_counterexample :
    appMiddlewareOrder.indexOf PipelineStage.jsonBodyParser <
      appMiddlewareOrder.indexOf PipelineStage.sizeGuard ∧
    ¬ appMiddlewareOrder.indexOf PipelineStage.sizeGuard <
      appMiddlewareOrder.indexOf PipelineStage.jsonBodyParser := by decide

/-- C5 (amended): every request whose declared content-length parses to a
value exceeding 1,048,576 is rejected with a 413 payload-too-large
outcome by the size guard, which runs before any field validation (it is
app-level middleware, ahead of the route's `validateProductInput`) but
after the JSON body parser, which is registered first. -/
theorem C5_size_guard_amended :
    (∀ s n, jsParseInt s = some n → 1048576 < n →
      limitRequestSize (some s) =
        .reject 413 "Request payload too large") ∧
    postProductsPipeline.indexOf PipelineStage.sizeGuard <
      postProductsPipeline.indexOf PipelineStage.productValidation ∧
    postProductsPipeline.indexOf PipelineStage.jsonBodyParser <
      postProductsPipeline.indexOf PipelineStage.sizeGuard := by
  refine ⟨?_, by decide, by decide⟩
  intro s n h1 h2
  simp only [limitRequestSize]
  by_cases he : s = ""
  · rw [he] at h1
    rw [show jsParseInt "" = none from by decide] at h1
    exact Option.noConfusion h1
  · rw [if_neg he, h1]
    exact if_pos h2

/-- C5, witness: a request declaring a 2MB content-length is rejected
with 413. -/
theorem C5_size_guard_witness :
    limitRequestSize (some "2097152") =
      .reject 413 "Request payload too large" :=
  C5_size_guard_amended.1 "2097152" 2097152 (by decide) (by decide)

/-- C6, counterexample: the non-numeric limit value `"12abc"` is not
rejected — `parseInt` accepts its numeric prefix and the middleware
silently rewrites the query value to `"12"`. -/
theorem C6_counterexample :
    validatePaginationParams (some "12abc") none =
      .proceed (some "12") none := by decide

/-- C6 (amended): `validatePaginationParams` rejects every limit whose
`parseInt` result is NaN or outside 1..100 and every skip whose `parseInt`
result is NaN or negative (`limit=0` and `limit=101` rejected with 400,
`limit=100` accepted); however a value with a parsable integer prefix,
such as `"12abc"`, is not rejected but silently normalized to that
prefix. -/
theorem C6_pagination_amended :
    (∀ l sk, jsParseInt l = none →
      validatePaginationParams (some l) sk =
        .rejected 400 "Invalid limit parameter. Must be between 1 and 100") ∧
    (∀ l sk n, jsParseInt l = some n → (n < 1 ∨ 100 < n) →
      validatePaginationParams (some l) sk =
        .rejected 400 "Invalid limit parameter. Must be between 1 and 100") ∧
    (∀ s, jsParseInt s = none →
      validatePaginationParams none (some s) =
        .rejected 400 "Invalid skip parameter. Must be non-negative") ∧
    (∀ s n, jsParseInt s = some n → n < 0 →
      validatePaginationParams none (some s) =
        .rejected 400 "Invalid skip parameter. Must be non-negative") ∧
    validatePaginationParams (some "0") none =
      .rejected 400 "Invalid limit parameter. Must be between 1 and 100" ∧
    validatePaginationParams (some "101") none =
      .rejected 400 "Invalid limit parameter. Must be between 1 and 100" ∧
    validatePaginationParams (some "100") none =
      .proceed (some "100") none := by
  refine ⟨?_, ?_, ?_, ?_, by decide, by decide, by decide⟩
  · intro l sk h
    simp only [validatePaginationParams]
    rw [h]
  · intro l sk n h1 h2
    simp only [validatePaginationParams]
    rw [h1]
    exact if_pos h2
  · intro s h
    simp only [validatePaginationParams, checkSkipParam]
    rw [h]
  · intro s n h1 h2
    simp only [validatePaginationParams, checkSkipParam]
    rw [h1]
    exact if_pos h2

/-- C6, witness: the non-numeric limit `"abc"` is rejected with 400. -/
theorem C6_pagination_witness :
    validatePaginationParams (some "abc") none =
      .rejected 400 "Invalid limit parameter. Must be between 1 and 100" :=
  C6_pagination_amended.1 "abc" none (by decide)

/-- C7: sanitize is a total function of the input string, its result
contains none of the characters `<`, `>`, single quote, double quote, and
its length is at most 255. -/
theorem C7_sanitize_safety :
    ∀ s : String,
      ((sanitizeString s).data.all
        fun c => !isAngleChar c && !isQuoteChar c) = true ∧
      (sanitizeString s).length ≤ 255 := by
  intro s
  constructor
  · rw [List.all_eq_true]
    intro c hc
    have h := mem_sanitizeChars (l := s.data) hc
    simp [h.1, h.2]
  · exact sanitizeChars_length_le s.data

/-- C8: every accepted payload's price is the raw numeric price rounded
half-up to 2 decimal places, and the name is the sanitized raw name — the
normalized values are what the route handler persists; in particular the
raw price `19.999` is normalized to `20`. -/
theorem C8_price_normalization :
    (∀ nv pv n p, validateProductInput nv pv = .accepted n p →
      ∃ s q, nv = .str s ∧ pv = .num (.val q) ∧ n = sanitizeString s ∧
        p = roundHalfUp2 q) ∧
    validateProductInput (.str "Gadget") (.num (.val (19999/1000))) =
      .accepted "Gadget" 20 := by
  constructor
  · intro nv pv n p h
    obtain ⟨s, q, h1, h2, h3, _, _, _, _, h8⟩ :=
      validateProductInput_accepted h
    exact ⟨s, q, h1, h2, h3, h8⟩
  · have h1 : sanitizeString "Gadget" = "Gadget" := by decide
    simp only [validateProductInput, h1]
    norm_num [roundHalfUp2, priceMax, Int.floor_eq_iff, truthy]
    decide

/-- C8, witness: the normalization equality extracted from the accepted
body `{name: "Gadget", price: 19.999}`. -/
theorem C8_price_normalization_witness :
    ∃ s q, JsValue.str "Gadget" = JsValue.str s ∧
      JsValue.num (JsNum.val (19999/1000)) = JsValue.num (JsNum.val q) ∧
      "Gadget" = sanitizeString s ∧ (20 : ℚ) = roundHalfUp2 q :=
  C8_price_normalization.1 (JsValue.str "Gadget")
    (JsValue.num (JsNum.val (19999/1000))) "Gadget" 20
    C8_price_normalization.2

/-- C9: for a store whose `createdAt` values increase in creation order,
the listing query returns the creation order reversed (most recent
first), then skips `skip` entries and returns at most `limit`; creating
A, B, C in that order and listing with default pagination yields
`[C, B, A]`. -/
theorem C9_list_ordering :
    (∀ (store : List Product) (limit skip : ℕ),
      store.Pairwise (fun a b => a.createdAt < b.createdAt) →
      listProducts store limit skip =
        (store.reverse.drop skip).take limit) ∧
    getProductsHandler [productA, productB, productC] none none =
      [productC, productB, productA] := by
  constructor
  · intro store limit skip h
    unfold listProducts
    rw [sortByCreatedAtDesc_of_increasing store h]
  · decide

/-- C9, witness: the ordering theorem applied to the concrete store
`[A, B, C]` with the route's default pagination values. -/
theorem C9_list_ordering_witness :
    listProducts [productA, productB, productC] 100 0 =
      (([productA, productB, productC].reverse).drop 0).take 100 :=
  C9_list_ordering.1 [productA, productB, productC] 100 0 (by decide)

/-- C10: every falsy `name` — the empty string, but also 0, false, null,
undefined and NaN — is rejected by the presence rule with the
"name is required" message, so an empty-string name never reaches the
is-string rule or the "cannot be empty" rule. -/
theorem C10_falsy_name :
    (∀ nv pv, truthy nv = false →
      validateProductInput nv pv =
        .rejected 400 "Product name is required") ∧
    truthy (.str "") = false ∧ truthy (.num (.val 0)) = false ∧
    truthy (.bool false) = false ∧ truthy .null = false ∧
    truthy .undefined = false ∧ truthy (.num .nan) = false := by
  refine ⟨?_, by decide, by decide, by decide, by decide, by decide,
    by decide⟩
  intro nv pv h
  unfold validateProductInput
  rw [h]
  rfl

/-- C10, witness: an empty-string name is rejected with the
"name is required" message. -/
theorem C10_falsy_name_witness :
    validateProductInput (.str "") (.num (.val 1)) =
      .rejected 400 "Product name is required" :=
  C10_falsy_name.1 (JsValue.str "") (JsValue.num (JsNum.val 1)) (by decide)
